import Mathlib

/-!
Verification of the routine-state derivation engine of `app_gsheet.py`
(personal habit/study-routine tracker).

The Python source is shallowly embedded below: pure functions become Lean
functions, pandas-dataframe operations become operations on lists of records,
Python `int` becomes `Int` (or `Nat` where the source only ever produces
non-negative values), Python `float` becomes `Rat`, pandas `NA` becomes
`Option`.  Definition names follow the source (`get_week_number`,
`get_detailed_schedule`, `get_checkable_blocks`, `get_daily_grade`,
`get_lecture_increment`, `sync_subjects_with_log`, `streak`, ...).
-/

namespace Planner

/-- One schedule item produced by `get_detailed_schedule`
(Python 5-tuple `(time_label, name, category, estimated_minutes, note)`). -/
structure Block where
  time : String
  name : String
  category : String
  minutes : Nat
  note : String
deriving Repr, DecidableEq

/-- Embedding of `get_detailed_schedule(phase, day_type, mode)`
(src/app_gsheet.py lines 404-480).  `phase` is a Python `int` (`Int` here);
`day_type` and `mode` are the literal strings used by the source
(`"weekday"`/`"sat"`/`"sun"`, `"normal"`/`"low"`/`"off"`).  The Python code
appends blocks to a list under `if`/`elif` guards; the embedding concatenates
the same blocks in the same order under the same guards. -/
def get_detailed_schedule (phase : Int) (day_type mode : String) : List Block :=
  if mode = "off" then
    [⟨"전일", "OFF 모드 (완전 휴식)", "rest", 0, "푹 쉬고 내일 복귀하세요"⟩]
  else if day_type = "weekday" then
    [⟨"05:30", "기상 + 준비", "morning", 0, "물 한잔, 세수, 스트레칭"⟩,
     ⟨"06:00-07:20", "출근 이동", "morning", 0, ""⟩]
    ++ (if phase ≥ 1 then
         [⟨"07:40-08:40", "☕ 아침 카페 출석", "study", 0, "카페 도착 = 오늘 50% 성공"⟩]
        else [])
    ++ (if phase ≥ 2 then
         [⟨"07:40-08:10", "   └ 전날 인강 다시 보기", "study", 30, "표시해둔 구간만 복습"⟩,
          ⟨"08:10-08:40", "   └ 복습용 문풀", "study", 30, "전날 강의 내용 5~7문제"⟩]
        else [])
    ++ [⟨"09:00-18:00", "💼 회사", "work", 0, ""⟩,
        ⟨"18:00-20:00", "퇴근 + 저녁", "rest", 0, ""⟩,
        ⟨"20:00-20:45", "저녁 휴식", "rest", 0, "유튜브/게임 가능 (공부 시작 전까지만)"⟩]
    ++ (if phase ≥ 1 then
         [⟨"20:45", "🪑 저녁 출석 (앉기)", "study", 0, "의자에 앉는 순간 70% 성공"⟩]
        else [])
    ++ (if phase = 1 then
         [⟨"20:45-21:30", "   └ 인강 틀어놓기/책 펴놓기", "study", 45, "이해 0%여도 상관없음, 모양만"⟩,
          ⟨"21:30-22:00", "🏋️ 운동 30분", "exercise", 0, "로잉/유산소"⟩,
          ⟨"22:00-22:20", "🚿 샤워", "exercise", 0, "모드 전환 의식"⟩,
          ⟨"22:20-23:00", "책상 앞 유지", "study", 0, "민법책 펼쳐보기, 자서전 읽기, 멍"⟩]
        else if phase = 2 then
         [⟨"20:45-21:30", "📚 인강 1강", "study", 45, "제대로 들어보려고 노력"⟩,
          ⟨"21:30-22:00", "🏋️ 운동 30분", "exercise", 0, ""⟩,
          ⟨"22:00-22:20", "🚿 샤워", "exercise", 0, ""⟩,
          ⟨"22:20-23:00", "📚 인강 이어서 or 복습", "study", 40, "2번째 강의 시작해보기"⟩]
        else if phase = 3 then
         [⟨"20:45-21:30", "📚 인강 1강", "study", 45, ""⟩,
          ⟨"21:30-21:50", "✏️ 1차 문풀", "study", 20, "방금 들은 1강 관련 4-6문제"⟩,
          ⟨"21:50-22:20", "🏋️ 운동 30분", "exercise", 0, ""⟩,
          ⟨"22:20-22:35", "🚿 샤워", "exercise", 0, ""⟩,
          ⟨"22:35-23:20", "📚 인강 2강", "study", 45, ""⟩,
          ⟨"23:20-23:40", "📖 복습 + 정리", "study", 20, "오늘 내용 핵심 메모"⟩]
        else if phase = 4 then
         [⟨"20:45-21:30", "📚 인강 1강", "study", 45, "오늘 3강 중 1강"⟩,
          ⟨"21:30-21:50", "✏️ 1차 문풀", "study", 20, "1강 관련 4-6문제"⟩,
          ⟨"21:50-22:20", "🏋️ 운동 30분", "exercise", 0, "월/수/금 or 화/목"⟩,
          ⟨"22:20-22:35", "🚿 샤워 15분", "exercise", 0, "공부 모드 스위치 ON"⟩,
          ⟨"22:35-23:20", "📚 인강 2강", "study", 45, ""⟩,
          ⟨"23:20-23:35", "✏️ 2차 문풀", "study", 15, "2강 관련 3-5문제"⟩,
          ⟨"23:35-00:20", "📚 인강 3강", "study", 45, "피곤하면 틀어놓기 모드 허용"⟩,
          ⟨"00:20-00:40", "✏️ 마감 문풀 + 정리", "study", 20, "핵심 3-5줄 메모, 내일 복습 포인트 표시"⟩]
        else [])
    ++ [⟨"00:40-01:00", "자유시간 + 취침 준비", "rest", 0, ""⟩,
        ⟨"01:00", "💤 취침", "rest", 0, "05:30 기상 리듬 유지"⟩]
  else
    [⟨"09:00-09:30", "기상 + 씻기 + 정리", "morning", 0, ""⟩]
    ++ (if phase ≥ 1 then
         [⟨"09:30-10:30", "☕ 아침 복습 블록", "study", 60, "전날/한 주 누적 복습"⟩]
        else [])
    ++ (if phase = 1 then
         [⟨"10:30-12:00", "📚 인강 틀기", "study", 60, "1강만 끝나도 대성공, 모양 유지"⟩,
          ⟨"12:00-13:00", "점심 + 휴식", "rest", 0, ""⟩,
          ⟨"13:00-15:00", "📚 인강 or 유지", "study", 60, "한 블록만 앉아있어도 성공"⟩]
        else if phase = 2 then
         [⟨"10:30-12:00", "📚 인강 1~2강", "study", 90, ""⟩,
          ⟨"12:00-13:00", "점심 + 휴식", "rest", 0, ""⟩,
          ⟨"13:00-15:00", "📚 인강 이어서", "study", 90, "하루 3-4강 목표"⟩,
          ⟨"15:30-17:30", "📖 가벼운 문풀/복습", "study", 60, ""⟩]
        else if phase = 3 then
         [⟨"10:30-12:00", "📚 오전 인강 2강", "study", 90, ""⟩,
          ⟨"12:00-13:00", "점심", "rest", 0, ""⟩,
          ⟨"13:00-15:00", "📚 오후 전반 인강 2강", "study", 90, ""⟩,
          ⟨"15:00-16:00", "✏️ 문풀 1차", "study", 60, "오전 4강 관련 15-20문제"⟩,
          ⟨"16:00-17:30", "📚 오후 후반 인강", "study", 90, ""⟩]
        else if phase = 4 then
         [⟨"09:30-10:30", "☕ 아침 복습", "study", 60, "복습용 문풀 10-15문제"⟩,
          ⟨"10:30-12:00", "📚 오전 인강 2강", "study", 90, ""⟩,
          ⟨"12:00-13:00", "점심 + 휴식", "rest", 0, "산책 10분"⟩,
          ⟨"13:00-14:30", "📚 오후 인강 2강", "study", 90, "이 시점 4/6강 완료"⟩,
          ⟨"14:30-15:30", "✏️ 문풀 1차", "study", 60, "오전 4강 관련 15-25문제"⟩,
          ⟨"15:30-17:00", "📚 오후 후반 인강 2강", "study", 90, "6강 마무리"⟩,
          ⟨"17:00-18:00", "저녁 + 휴식", "rest", 0, ""⟩,
          ⟨"18:00-19:30", "✏️ 문풀 2차", "study", 90, "하루 전체 + 주간 누적 20-30문제"⟩,
          ⟨"19:30-20:00", "📝 정리 + 내일 준비", "study", 30, "핵심 메모, 내일 복습 포인트"⟩]
        else [])
    ++ [⟨"20:00 이후", "자유시간 + 산책", "rest", 0, ""⟩]

/-- Whitespace stripping from both ends of a character list
(Python `str.strip()` with no argument). -/
def stripChars (l : List Char) : List Char :=
  ((l.dropWhile Char.isWhitespace).reverse.dropWhile Char.isWhitespace).reverse

/-- Cleaning of a block name before it is used as a log key
(`clean_name = name.strip()` followed by: if it starts with the tree marker
`└`, drop that first character and strip again — appearing verbatim in
`get_checkable_blocks` and in the routine tab). -/
def cleanName (s : String) : String :=
  match stripChars s.data with
  | '└' :: rest => String.mk (stripChars rest)
  | t => String.mk t

/-- Embedding of `get_checkable_blocks(phase, day_type, mode)`
(src/app_gsheet.py lines 483-493): keeps the blocks whose category is
`study` or `exercise` (the `minutes >= 0` guard of the source is vacuous for
`Nat` minutes, as it is for the non-negative template constants), returning
`(clean_name, minutes, desc)` triples. -/
def get_checkable_blocks (phase : Int) (day_type mode : String) :
    List (String × Nat × String) :=
  ((get_detailed_schedule phase day_type mode).filter
      (fun b => b.category == "study" || b.category == "exercise")).map
    (fun b => (cleanName b.name, b.minutes, b.note))

/-- Total of the `estimated_minutes` over the checkable blocks
(`total_possible = sum([m for _, m, _ in checkable])`, line 882). -/
def totalCheckableMinutes (phase : Int) (day_type mode : String) : Nat :=
  ((get_checkable_blocks phase day_type mode).map (fun x => x.2.1)).sum

/-- Decides whether `pat` occurs as a (contiguous) prefix of `l`
(helper for the embedding of Python substring containment). -/
def prefixb : List Char → List Char → Bool
  | [], _ => true
  | _ :: _, [] => false
  | b :: bs, a :: as => b == a && prefixb bs as

/-- Decides whether `pat` occurs as a contiguous sublist of `l`
(Python `pat in s` on strings). -/
def infixb (pat : List Char) : List Char → Bool
  | [] => prefixb pat []
  | a :: as => prefixb pat (a :: as) || infixb pat as

/-- Python substring containment `pat in s`. -/
def hasSub (s pat : String) : Bool := infixb pat.data s.data

/-- Embedding of `get_lecture_increment(block_name)`
(src/app_gsheet.py lines 551-559): substring rules mapping a block name to
lecture credits, evaluated first-match in source order. -/
def get_lecture_increment (block_name : String) : Nat :=
  if hasSub block_name "인강 3강" then 1
  else if hasSub block_name "인강 2강" then
    (if hasSub block_name "오전 인강 2강" || hasSub block_name "오후 인강 2강"
        || hasSub block_name "후반 인강 2강" then 2 else 1)
  else if hasSub block_name "인강 1강" || hasSub block_name "인강 1~2강"
      || hasSub block_name "인강 이어서" then 1
  else 0

/-- Lecture-credit mapping as worded by the specification (§4.3): an ordered
first-match rule list — the lecture-3 marker gives 1; the lecture-2 marker
gives 2 exactly on the designated double-session weekend labels (the
morning / afternoon / late-afternoon lecture-2 markers), else 1; the
lecture-1, combined 1~2-lecture and continue-lecture markers give 1; any
other name gives 0.  Stated over the same substring test as the source
(the spec calls these "exact substring rules"). -/
def credit_spec (name : String) : Nat :=
  if hasSub name "인강 3강" then 1
  else if hasSub name "인강 2강" then
    (if hasSub name "오전 인강 2강" then 2
     else if hasSub name "오후 인강 2강" then 2
     else if hasSub name "후반 인강 2강" then 2
     else 1)
  else if hasSub name "인강 1강" then 1
  else if hasSub name "인강 1~2강" then 1
  else if hasSub name "인강 이어서" then 1
  else 0

/-- Embedding of `get_daily_grade(hours)` (src/app_gsheet.py lines 537-547).
Python `float` hours is modelled as `Rat`; the threshold literals 2.5, 3.1,
3.9, 4.6 are exact rationals. -/
def get_daily_grade (hours : Rat) : String :=
  if hours < 2.5 then "D-"
  else if hours < 3.1 then "A"
  else if hours < 3.9 then "B"
  else if hours < 4.6 then "C"
  else "S"

/-- Model of Python `round(x, 1)`: round to the nearest multiple of 1/10.
Mathlib `round` rounds exact halves up; Python, computing on binary doubles,
resolves an exact rational half by the double representation of `x`, which
can fall on either side.  Every theorem below that evaluates this function
does so away from such ties. -/
def roundTenth (q : Rat) : Rat := ((round (10 * q) : Int) : Rat) / 10

/-- Embedding of the weekly-grade computation of the analysis tab
(src/app_gsheet.py lines 1019-1021): `tm` is the summed `estimated_minutes`
of the selected week, `th = round(tm / 60, 1)`, and the letter comes from the
threshold chain `<18 → "D-", <22 → "A", <27 → "B", <32 → "C", else "S"`. -/
def weekly_grade (tm : Int) : String :=
  if roundTenth ((tm : Rat) / 60) < 18 then "D-"
  else if roundTenth ((tm : Rat) / 60) < 22 then "A"
  else if roundTenth ((tm : Rat) / 60) < 27 then "B"
  else if roundTenth ((tm : Rat) / 60) < 32 then "C"
  else "S"

/-- Embedding of `get_week_number(start_date, target_date)`
(src/app_gsheet.py lines 377-379).  Dates are modelled by their ordinal day
number, so `(target_date - start_date).days = t - s`; Python floor division
`//` is `Int.fdiv`. -/
def get_week_number (s t : Int) : Int :=
  max 1 ((t - s).fdiv 7 + 1)

/-- One log row (the `LOG_HEADERS` record of src/app_gsheet.py line 83).
Dates are ordinal day numbers; `subject` is `none` for pandas `NA`. -/
structure Row where
  date : Int
  phase : Int
  day_type : String
  mode : String
  block : String
  done : Bool
  estimated_minutes : Nat
  energy : Int
  focus : Int
  note : String
  subject : Option String
deriving Repr, DecidableEq

/-- Whether date `d` has at least one row with `done = True` and
`block != "OFF"` — the per-date test
`((day_rows["done"] == True) & (day_rows["block"] != "OFF")).any()` of the
streak loop (src/app_gsheet.py line 743). -/
def daySuccess (log : List Row) (d : Int) : Bool :=
  (log.filter (fun r => r.date == d)).any (fun r => r.done && !(r.block == "OFF"))

/-- Deduplication keeping first occurrences (helper). -/
def dedupFirstAux [BEq α] (seen : List α) : List α → List α
  | [] => []
  | a :: l => if seen.contains a then dedupFirstAux seen l
              else a :: dedupFirstAux (a :: seen) l

/-- Deduplication keeping first occurrences: pandas `Series.unique()` order,
and the key set (in insertion order) of a Python dict filled in one pass. -/
def dedupFirst [BEq α] (l : List α) : List α := dedupFirstAux [] l

/-- The distinct logged dates in descending order:
`sorted(log_df["date"].unique(), reverse=True)` (src/app_gsheet.py line 735). -/
def uniqueDatesDesc (log : List Row) : List Int :=
  List.insertionSort (fun a b => b ≤ a) (dedupFirst (log.map (fun r => r.date)))

/-- The body of the streak loop (src/app_gsheet.py lines 737-746): future
dates are skipped (`continue`), an empty date group or a group with no true
non-OFF row stops the loop (`break`), any other group adds one. -/
def streakGo (log : List Row) (today : Int) : List Int → Nat
  | [] => 0
  | d :: ds =>
    if d > today then streakGo log today ds
    else if (log.filter (fun r => r.date == d)).isEmpty then 0
    else if daySuccess log d then 1 + streakGo log today ds
    else 0

/-- Embedding of the attendance-streak computation
(src/app_gsheet.py lines 735-746). -/
def streak (log : List Row) (today : Int) : Nat :=
  streakGo log today (uniqueDatesDesc log)

/-- Helper for `specStreakClaim`: scan calendar days backward from `d`,
counting while each day has a true non-OFF row; the fuel argument only
bounds the recursion and is chosen large enough never to bind. -/
def specStreakGo (log : List Row) : Nat → Int → Nat
  | 0, _ => 0
  | n + 1, d => if daySuccess log d then 1 + specStreakGo log n (d - 1) else 0

/-- Modelled from the claim (C1) and spec §4.3 wording: the streak counts
consecutive CALENDAR days ending today, each having at least one
`done = true`, non-`"OFF"` entry, so that a calendar date with zero logged
rows between two logged dates stops the count (gap = break).  A fuel of
`log.length + 1` suffices: a run of `log.length + 1` consecutive successful
days would need more distinct dates than the log has rows. -/
def specStreakClaim (log : List Row) (today : Int) : Nat :=
  specStreakGo log (log.length + 1) today

/-- One subject record (`SUBJECT_HEADERS`, src/app_gsheet.py line 96). -/
structure Subject where
  name : String
  total_lectures : Int
  completed_lectures : Int
  active : Bool
deriving Repr, DecidableEq

/-- Lecture credits a subject derives from the log: the source groups the log
by `subject` and applies `lecture_credits_from_rows` (sum of
`get_lecture_increment(block)` over the rows with `done == True`,
src/app_gsheet.py lines 562-576). -/
def subjectCredits (log : List Row) (name : String) : Nat :=
  ((log.filter (fun r => r.subject == some name && r.done)).map
      (fun r => get_lecture_increment r.block)).sum

/-- Whether `name` appears as a group key of
`compute_subject_progress` — i.e. as a non-null, non-empty `subject` value of
some log row (src/app_gsheet.py lines 568-576). -/
def subjectLoggedb (log : List Row) (name : String) : Bool :=
  !(name == "") && log.any (fun r => r.subject == some name)

/-- Embedding of `sync_subjects_with_log(log_df, subjects)`
(src/app_gsheet.py lines 579-593): every subject whose name occurs in the
log-derived progress map gets
`completed_lectures := max(progress[name], completed_lectures)`; the others
are untouched.  (The source additionally persists the list when a value
changed; storage is out of scope.) -/
def sync_subjects_with_log (log : List Row) (subjects : List Subject) :
    List Subject :=
  subjects.map (fun s =>
    if subjectLoggedb log s.name then
      { s with completed_lectures :=
          (max (subjectCredits log s.name : Int) s.completed_lectures) }
    else s)

/-- The keys of the `checkbox_states` dict built by the routine tab
(src/app_gsheet.py lines 853-874): the cleaned names of the study/exercise
blocks of the day's schedule, in first-occurrence order (dict key order). -/
def checkboxKeys (phase : Int) (day_type mode : String) : List String :=
  dedupFirst (((get_detailed_schedule phase day_type mode).filter
      (fun b => b.category == "study" || b.category == "exercise")).map
    (fun b => cleanName b.name))

/-- The `block_meta` dict of the routine tab (src/app_gsheet.py lines
854-859): maps a cleaned block name to `(minutes, category)`; repeated
assignment in the loop means the LAST schedule block with that cleaned name
wins, and the `meta.get(..., default)` fallbacks are `0` and a non-`study`
category. -/
def blockMeta (phase : Int) (day_type mode : String) (k : String) :
    Nat × String :=
  match ((get_detailed_schedule phase day_type mode).filter
      (fun b => cleanName b.name == k)).getLast? with
  | some b => (b.minutes, b.category)
  | none => (0, "")

/-- The `new_rows` list built by the save-button handler
(src/app_gsheet.py lines 905-941): in OFF mode a single synthetic OFF row;
otherwise one row per `checkbox_states` key, with `done` the submitted
checkbox state (`check k`), `estimated_minutes` the block's minutes when
done else 0, and `subject` set only for `study` blocks and only when the
subject selector was enabled (`hasSubjects`). -/
def newRows (d phase : Int) (day_type mode : String) (check : String → Bool)
    (energy focus : Int) (note subj : String) (hasSubjects : Bool) :
    List Row :=
  if mode = "off" then
    [⟨d, phase, day_type, mode, "OFF", true, 0, energy, focus, note, none⟩]
  else
    (checkboxKeys phase day_type mode).map (fun k =>
      let meta := blockMeta phase day_type mode k
      ⟨d, phase, day_type, mode, k, check k,
        if check k then meta.1 else 0,
        energy, focus, note,
        if meta.2 == "study" && hasSubjects then some subj else none⟩)

/-- Embedding of the save-button handler of the routine tab
(src/app_gsheet.py lines 903-947): first drop every existing row of the
selected date (`log_df = log_df[~(log_df["date"] == selected_date)]`), then
append the freshly built `new_rows`. -/
def submitLog (log : List Row) (d phase : Int) (day_type mode : String)
    (check : String → Bool) (energy focus : Int) (note subj : String)
    (hasSubjects : Bool) : List Row :=
  (log.filter (fun r => !(r.date == d)))
    ++ newRows d phase day_type mode check energy focus note subj hasSubjects

/-- A minimal successful log row used by concrete test logs. -/
def attendRow (d : Int) : Row :=
  ⟨d, 3, "weekday", "normal", "저녁 출석 (앉기)", true, 45, 3, 3, "", none⟩

/-- Concrete log exhibiting a calendar gap: rows on days 100, 99, 98 and 96
(no row on day 97), all successful. -/
def gapLog : List Row := [attendRow 100, attendRow 99, attendRow 98, attendRow 96]

end Planner

namespace Planner

/-- Distributing an `if` over a boolean disjunction (helper). -/
theorem ite_orb {α : Sort _} (a b : Bool) (x y : α) :
    (if a || b then x else y) = if a then x else if b then x else y := by
  cases a <;> cases b <;> simp

/-- C3: the lecture-credit function follows the spec's ordered substring
rules — the lecture-3 marker gives 1; the lecture-2 marker gives 2 exactly
when one of the three designated double-session weekend markers (morning,
afternoon, late-afternoon lecture-2) occurs, else 1; the lecture-1, combined
1~2-lecture and continue-lecture markers give 1; anything else gives 0 — and
evaluates accordingly on the concrete template block names. -/
theorem lecture_credit_rules :
    (∀ name : String, get_lecture_increment name = credit_spec name)
    ∧ get_lecture_increment "📚 오전 인강 2강" = 2
    ∧ get_lecture_increment "📚 오후 인강 2강" = 2
    ∧ get_lecture_increment "📚 오후 후반 인강 2강" = 2
    ∧ get_lecture_increment "📚 오후 전반 인강 2강" = 1
    ∧ get_lecture_increment "📚 인강 1강" = 1
    ∧ get_lecture_increment "📚 인강 1~2강" = 1
    ∧ get_lecture_increment "📚 인강 이어서" = 1
    ∧ get_lecture_increment "📚 인강 이어서 or 복습" = 1
    ∧ get_lecture_increment "📚 인강 3강" = 1
    ∧ get_lecture_increment "📚 인강 틀기" = 0
    ∧ get_lecture_increment "☕ 아침 복습 블록" = 0 := by
  refine ⟨?_, by decide, by decide, by decide, by decide, by decide, by decide,
    by decide, by decide, by decide, by decide, by decide⟩
  intro name
  unfold get_lecture_increment credit_spec
  simp only [ite_orb]

/-- C7: the daily grade partitions non-negative hour values at 2.5, 3.1, 3.9
and 4.6 with the letters in the product's own order D-, A, B, C, S, and takes
the stated values at the boundary examples. -/
theorem daily_grade_thresholds :
    (∀ h : Rat, 0 ≤ h →
      ((get_daily_grade h = "D-" ↔ h < 2.5)
        ∧ (get_daily_grade h = "A" ↔ 2.5 ≤ h ∧ h < 3.1)
        ∧ (get_daily_grade h = "B" ↔ 3.1 ≤ h ∧ h < 3.9)
        ∧ (get_daily_grade h = "C" ↔ 3.9 ≤ h ∧ h < 4.6)
        ∧ (get_daily_grade h = "S" ↔ 4.6 ≤ h)))
    ∧ get_daily_grade 2.4 = "D-" ∧ get_daily_grade 2.5 = "A"
    ∧ get_daily_grade 3.9 = "C" ∧ get_daily_grade 5.0 = "S" := by
  refine ⟨?_, by norm_num [get_daily_grade], by norm_num [get_daily_grade],
    by norm_num [get_daily_grade], by norm_num [get_daily_grade]⟩
  intro h h0
  unfold get_daily_grade
  split_ifs with h1 h2 h3 h4 <;>
    refine ⟨⟨fun hh => ?_, fun hh => ?_⟩, ⟨fun hh => ?_, fun hh => ?_⟩,
      ⟨fun hh => ?_, fun hh => ?_⟩, ⟨fun hh => ?_, fun hh => ?_⟩,
      ⟨fun hh => ?_, fun hh => ?_⟩⟩ <;>
    first
      | rfl
      | linarith
      | exact absurd hh (by decide)
      | exact ⟨by linarith, by linarith⟩

/-- Witness for `daily_grade_thresholds` at the boundary value 2.5. -/
theorem daily_grade_thresholds_witness : get_daily_grade 2.5 = "A" :=
  ((daily_grade_thresholds.1 2.5 (by norm_num)).2.1).mpr
    ⟨by norm_num, by norm_num⟩

/-- C8: `get_week_number` equals `max(1, floor((target - start)/7) + 1)` with
a true rational floor, and is always at least 1, also for targets before the
start date. -/
theorem week_number_floor :
    ∀ s t : Int,
      get_week_number s t = max 1 (⌊((t : Rat) - (s : Rat)) / 7⌋ + 1)
      ∧ 1 ≤ get_week_number s t := by
  intro s t
  constructor
  · unfold get_week_number
    congr 2
    have hcast : (t : Rat) - (s : Rat) = ((t - s : Int) : Rat) := by push_cast; ring
    have h7 : (7 : Rat) = ((7 : Nat) : Rat) := by norm_num
    rw [hcast, h7, Rat.floor_intCast_div_natCast]
    rw [Int.fdiv_eq_ediv _ (by norm_num)]
    rfl
  · exact le_max_left 1 _

/-- C5: syncing subjects with the log never decreases a completed-lecture
count, and any subject whose log-derived credit total does not exceed its
current count comes out unchanged (in particular the count is set to the max
of the two values only for subjects that occur in the log). -/
theorem sync_subjects_monotone :
    ∀ (log : List Row) (subjects : List Subject),
      List.Forall₂
        (fun s s2 =>
          s.completed_lectures ≤ s2.completed_lectures
          ∧ ((subjectCredits log s.name : Int) ≤ s.completed_lectures → s2 = s))
        subjects (sync_subjects_with_log log subjects) := by
  intro log subjects
  induction subjects with
  | nil => exact List.Forall₂.nil
  | cons s rest ih =>
    rw [sync_subjects_with_log, List.map_cons]
    refine List.Forall₂.cons ?_ ih
    by_cases hl : subjectLoggedb log s.name = true
    · rw [if_pos hl]
      refine ⟨le_max_right _ _, fun hle => ?_⟩
      have hmax : (max (subjectCredits log s.name : Int) s.completed_lectures)
          = s.completed_lectures := max_eq_right hle
      rw [hmax]
    · rw [if_neg hl]
      exact ⟨le_refl _, fun _ => rfl⟩

/-- Witness for `sync_subjects_monotone` on a concrete log and subject
list. -/
theorem sync_subjects_monotone_witness :
    List.Forall₂
      (fun s s2 =>
        s.completed_lectures ≤ s2.completed_lectures
        ∧ ((subjectCredits gapLog s.name : Int) ≤ s.completed_lectures →
            s2 = s))
      [⟨"민법", 220, 0, true⟩]
      (sync_subjects_with_log gapLog [⟨"민법", 220, 0, true⟩]) :=
  sync_subjects_monotone gapLog [⟨"민법", 220, 0, true⟩]

/-- Every row built by the save handler carries the submitted date (helper). -/
theorem newRows_dates {d phase : Int} {day_type mode : String}
    {check : String → Bool} {energy focus : Int} {note subj : String}
    {hasSubjects : Bool} (r : Row)
    (hr : r ∈ newRows d phase day_type mode check energy focus note subj hasSubjects) :
    r.date = d := by
  unfold newRows at hr
  by_cases hm : mode = "off"
  · rw [if_pos hm] at hr
    rw [List.mem_singleton] at hr
    rw [hr]
  · rw [if_neg hm] at hr
    rw [List.mem_map] at hr
    obtain ⟨k, _, hk⟩ := hr
    rw [← hk]

/-- C2: the save handler is idempotent — submitting the same inputs for the
same date twice leaves exactly the log produced by the first submission (the
handler first deletes every row of that date, then re-inserts rows that all
carry that date and are derived only from the inputs). -/
theorem submit_idempotent :
    ∀ (log : List Row) (d phase : Int) (day_type mode : String)
      (check : String → Bool) (energy focus : Int) (note subj : String)
      (hasSubjects : Bool),
      submitLog (submitLog log d phase day_type mode check energy focus note subj hasSubjects)
          d phase day_type mode check energy focus note subj hasSubjects
        = submitLog log d phase day_type mode check energy focus note subj hasSubjects := by
  intro log d phase day_type mode check energy focus note subj hasSubjects
  unfold submitLog
  rw [List.filter_append]
  have h2 : (newRows d phase day_type mode check energy focus note subj
      hasSubjects).filter (fun r => !(r.date == d)) = [] := by
    rw [List.filter_eq_nil_iff]
    intro r hr
    rw [newRows_dates r hr]
    simp
  have h1 : (log.filter (fun r => !(r.date == d))).filter (fun r => !(r.date == d))
      = log.filter (fun r => !(r.date == d)) := by
    rw [List.filter_filter]
    apply List.filter_congr
    intro r _
    rw [Bool.and_self]
  rw [h1, h2, List.append_nil]

/-- C6 counterexample: at a weekly total of 1079 minutes the exact hour count
1079/60 is below 18, so the claim's exact-hours reading demands the grade
"D-", but the code first rounds 1079/60 ≈ 17.983 to one decimal, getting
18.0, and grades it "A". -/
theorem weekly_grade_exact_hours_cex :
    ((1079 : Rat) / 60 < 18) ∧ weekly_grade 1079 = "A" ∧ weekly_grade 1079 ≠ "D-" := by
  have hA : weekly_grade 1079 = "A" := by
    norm_num [weekly_grade, roundTenth, round_eq]
  refine ⟨by norm_num, hA, ?_⟩
  rw [hA]
  decide

/-- C6 (amended): the weekly letter grade applies the thresholds 18, 22, 27,
32 to the week's minute total divided by 60 and ROUNDED to the nearest tenth
(Python `round(tm/60, 1)`), not to the exact quotient; away from exact
rounding ties (`tm % 6 = 3`, where Python's binary floats decide the
direction) the letter is characterized by those rounded-hour thresholds, and
the claim's examples 1080 → "A", 1320 → "B", 1920 → "S" hold. -/
theorem weekly_grade_thresholds :
    (∀ tm : Int, tm % 6 ≠ 3 →
      ((weekly_grade tm = "D-" ↔ roundTenth ((tm : Rat) / 60) < 18)
        ∧ (weekly_grade tm = "A" ↔
            18 ≤ roundTenth ((tm : Rat) / 60) ∧ roundTenth ((tm : Rat) / 60) < 22)
        ∧ (weekly_grade tm = "B" ↔
            22 ≤ roundTenth ((tm : Rat) / 60) ∧ roundTenth ((tm : Rat) / 60) < 27)
        ∧ (weekly_grade tm = "C" ↔
            27 ≤ roundTenth ((tm : Rat) / 60) ∧ roundTenth ((tm : Rat) / 60) < 32)
        ∧ (weekly_grade tm = "S" ↔ 32 ≤ roundTenth ((tm : Rat) / 60))))
    ∧ weekly_grade 1080 = "A" ∧ weekly_grade 1320 = "B" ∧ weekly_grade 1920 = "S" := by
  refine ⟨?_, by norm_num [weekly_grade, roundTenth, round_eq],
    by norm_num [weekly_grade, roundTenth, round_eq],
    by norm_num [weekly_grade, roundTenth, round_eq]⟩
  intro tm _
  unfold weekly_grade
  split_ifs with h1 h2 h3 h4 <;>
    refine ⟨⟨fun hh => ?_, fun hh => ?_⟩, ⟨fun hh => ?_, fun hh => ?_⟩,
      ⟨fun hh => ?_, fun hh => ?_⟩, ⟨fun hh => ?_, fun hh => ?_⟩,
      ⟨fun hh => ?_, fun hh => ?_⟩⟩ <;>
    first
      | rfl
      | linarith
      | exact absurd hh (by decide)
      | exact ⟨by linarith, by linarith⟩

/-- Witness for `weekly_grade_thresholds` at the concrete total 1080. -/
theorem weekly_grade_thresholds_witness : weekly_grade 1080 = "A" :=
  ((weekly_grade_thresholds.1 1080 (by decide)).2.1).mpr
    (by norm_num [roundTenth, round_eq])

/-- The schedule only inspects `mode` through the test `mode == "off"`
(helper). -/
theorem schedule_mode_ne_off (p : Int) (dt : String) {mode : String}
    (h : mode ≠ "off") :
    get_detailed_schedule p dt mode = get_detailed_schedule p dt "normal" := by
  unfold get_detailed_schedule
  rw [if_neg h, if_neg (by decide : ¬("normal" : String) = "off")]

/-- The schedule only inspects `day_type` through the test
`day_type == "weekday"` (helper). -/
theorem schedule_dt_ne_weekday (p : Int) {dt : String} (mode : String)
    (h : dt ≠ "weekday") :
    get_detailed_schedule p dt mode = get_detailed_schedule p "sat" mode := by
  unfold get_detailed_schedule
  by_cases hm : mode = "off"
  · rw [if_pos hm, if_pos hm]
  · rw [if_neg hm, if_neg hm, if_neg h,
      if_neg (by decide : ¬("sat" : String) = "weekday")]

/-- Checkable-total congruence in `mode` away from off (helper). -/
theorem total_mode_ne_off (p : Int) (dt : String) {mode : String}
    (h : mode ≠ "off") :
    totalCheckableMinutes p dt mode = totalCheckableMinutes p dt "normal" := by
  unfold totalCheckableMinutes get_checkable_blocks
  rw [schedule_mode_ne_off p dt h]

/-- Checkable-total congruence in `day_type` away from weekday (helper). -/
theorem total_dt_ne_weekday (p : Int) {dt : String} (mode : String)
    (h : dt ≠ "weekday") :
    totalCheckableMinutes p dt mode = totalCheckableMinutes p "sat" mode := by
  unfold totalCheckableMinutes get_checkable_blocks
  rw [schedule_dt_ne_weekday p mode h]

/-- C4: for every phase 1..4, every day type and every mode other than off,
the generated schedule is non-empty, and for a fixed day type the total
estimated minutes over the checkable blocks is strictly increasing in the
phase (weekday totals 45 < 145 < 190 < 250; weekend totals
180 < 300 < 390 < 570). -/
theorem schedule_nonempty_and_monotone :
    ∀ (p : Int) (dt mode : String), p ∈ ([1, 2, 3, 4] : List Int) →
      mode ≠ "off" →
      (get_detailed_schedule p dt mode ≠ []
        ∧ totalCheckableMinutes 1 dt mode < totalCheckableMinutes 2 dt mode
        ∧ totalCheckableMinutes 2 dt mode < totalCheckableMinutes 3 dt mode
        ∧ totalCheckableMinutes 3 dt mode < totalCheckableMinutes 4 dt mode) := by
  intro p dt mode hp hm
  rw [schedule_mode_ne_off p dt hm, total_mode_ne_off 1 dt hm,
    total_mode_ne_off 2 dt hm, total_mode_ne_off 3 dt hm,
    total_mode_ne_off 4 dt hm]
  simp only [List.mem_cons, List.not_mem_nil, or_false] at hp
  by_cases hdt : dt = "weekday"
  · subst hdt
    rcases hp with rfl | rfl | rfl | rfl <;>
      exact ⟨by decide, by decide, by decide, by decide⟩
  · rw [schedule_dt_ne_weekday p "normal" hdt, total_dt_ne_weekday 1 "normal" hdt,
      total_dt_ne_weekday 2 "normal" hdt, total_dt_ne_weekday 3 "normal" hdt,
      total_dt_ne_weekday 4 "normal" hdt]
    rcases hp with rfl | rfl | rfl | rfl <;>
      exact ⟨by decide, by decide, by decide, by decide⟩

/-- Witness for `schedule_nonempty_and_monotone` at phase 1, weekday,
normal mode. -/
theorem schedule_nonempty_and_monotone_witness :
    get_detailed_schedule 1 "weekday" "normal" ≠ []
      ∧ totalCheckableMinutes 1 "weekday" "normal"
          < totalCheckableMinutes 2 "weekday" "normal"
      ∧ totalCheckableMinutes 2 "weekday" "normal"
          < totalCheckableMinutes 3 "weekday" "normal"
      ∧ totalCheckableMinutes 3 "weekday" "normal"
          < totalCheckableMinutes 4 "weekday" "normal" :=
  schedule_nonempty_and_monotone 1 "weekday" "normal" (by decide) (by decide)

/-- C10: for a weekday with any non-off mode and any phase at or below 0, the
generated schedule still contains the framing blocks (it is non-empty) but no
study or exercise block, so the checkable-block list is empty and the
possible total study minutes is 0. -/
theorem schedule_phase_nonpos :
    ∀ (phase : Int) (mode : String), phase ≤ 0 → mode ≠ "off" →
      (get_detailed_schedule phase "weekday" mode ≠ []
        ∧ (∀ b ∈ get_detailed_schedule phase "weekday" mode,
            b.category ≠ "study" ∧ b.category ≠ "exercise")
        ∧ get_checkable_blocks phase "weekday" mode = []
        ∧ totalCheckableMinutes phase "weekday" mode = 0) := by
  intro phase mode hp hm
  have h1 : ¬(phase ≥ 1) := by omega
  have h2 : ¬(phase ≥ 2) := by omega
  have e1 : ¬(phase = 1) := by omega
  have e2 : ¬(phase = 2) := by omega
  have e3 : ¬(phase = 3) := by omega
  have e4 : ¬(phase = 4) := by omega
  have hsched : get_detailed_schedule phase "weekday" mode
      = [⟨"05:30", "기상 + 준비", "morning", 0, "물 한잔, 세수, 스트레칭"⟩,
         ⟨"06:00-07:20", "출근 이동", "morning", 0, ""⟩,
         ⟨"09:00-18:00", "💼 회사", "work", 0, ""⟩,
         ⟨"18:00-20:00", "퇴근 + 저녁", "rest", 0, ""⟩,
         ⟨"20:00-20:45", "저녁 휴식", "rest", 0, "유튜브/게임 가능 (공부 시작 전까지만)"⟩,
         ⟨"00:40-01:00", "자유시간 + 취침 준비", "rest", 0, ""⟩,
         ⟨"01:00", "💤 취침", "rest", 0, "05:30 기상 리듬 유지"⟩] := by
    unfold get_detailed_schedule
    rw [if_neg hm, if_pos rfl, if_neg h1, if_neg h2, if_neg h1, if_neg e1,
      if_neg e2, if_neg e3, if_neg e4]
    rfl
  refine ⟨by rw [hsched]; decide, ?_, ?_, ?_⟩
  · rw [hsched]; decide
  · unfold get_checkable_blocks; rw [hsched]; decide
  · unfold totalCheckableMinutes get_checkable_blocks; rw [hsched]; decide

/-- Witness for `schedule_phase_nonpos` at phase 0, normal mode. -/
theorem schedule_phase_nonpos_witness :
    get_detailed_schedule 0 "weekday" "normal" ≠ []
      ∧ (∀ b ∈ get_detailed_schedule 0 "weekday" "normal",
          b.category ≠ "study" ∧ b.category ≠ "exercise")
      ∧ get_checkable_blocks 0 "weekday" "normal" = []
      ∧ totalCheckableMinutes 0 "weekday" "normal" = 0 :=
  schedule_phase_nonpos 0 "normal" (by decide) (by decide)

/-- The blocks of a saved non-OFF submission are keyed exactly by the
`checkbox_states` keys (helper). -/
theorem newRows_map_block {d phase : Int} {day_type mode : String}
    {check : String → Bool} {energy focus : Int} {note subj : String}
    {hasSubjects : Bool} (h : mode ≠ "off") :
    (newRows d phase day_type mode check energy focus note subj
        hasSubjects).map (fun r => r.block)
      = checkboxKeys phase day_type mode := by
  unfold newRows
  rw [if_neg h, List.map_map]
  exact List.map_id _

/-- C9: for every phase 1..4, every day type and both non-off modes, the
cleaned checkable block names are pairwise distinct, and a single non-off
submission writes exactly one row per checkable block (its `block` column
enumerates the cleaned checkable names) with every row carrying the submitted
date — so (date, block) identifies a freshly written row. -/
theorem checkable_block_names_nodup :
    ∀ (p : Int) (dt mode : String), p ∈ ([1, 2, 3, 4] : List Int) →
      dt ∈ (["weekday", "sat", "sun"] : List String) →
      mode ∈ (["normal", "low"] : List String) →
      (((get_checkable_blocks p dt mode).map (fun x => x.1)).Nodup
        ∧ ∀ (d : Int) (check : String → Bool) (energy focus : Int)
            (note subj : String) (hasSubjects : Bool),
            ((newRows d p dt mode check energy focus note subj
                  hasSubjects).map (fun r => r.block)
              = (get_checkable_blocks p dt mode).map (fun x => x.1))
            ∧ ∀ r ∈ newRows d p dt mode check energy focus note subj
                hasSubjects, r.date = d) := by
  intro p dt mode hp hdt hm
  simp only [List.mem_cons, List.not_mem_nil, or_false] at hp hdt hm
  rcases hp with rfl | rfl | rfl | rfl <;> rcases hdt with rfl | rfl | rfl <;>
    rcases hm with rfl | rfl <;>
    exact ⟨by decide, fun d check energy focus note subj hasSubjects =>
      ⟨(newRows_map_block (by decide)).trans (by decide),
        fun r hr => newRows_dates r hr⟩⟩

/-- Witness for `checkable_block_names_nodup` at phase 3, weekday, normal. -/
theorem checkable_block_names_nodup_witness :
    ((get_checkable_blocks 3 "weekday" "normal").map (fun x => x.1)).Nodup
      ∧ ∀ (d : Int) (check : String → Bool) (energy focus : Int)
          (note subj : String) (hasSubjects : Bool),
          ((newRows d 3 "weekday" "normal" check energy focus note subj
                hasSubjects).map (fun r => r.block)
            = (get_checkable_blocks 3 "weekday" "normal").map (fun x => x.1))
          ∧ ∀ r ∈ newRows d 3 "weekday" "normal" check energy focus note subj
              hasSubjects, r.date = d :=
  checkable_block_names_nodup 3 "weekday" "normal" (by decide) (by decide)
    (by decide)

/-- Membership is preserved by first-occurrence deduplication (helper). -/
theorem mem_dedupFirstAux [BEq α] {x : α} :
    ∀ {l seen : List α}, x ∈ dedupFirstAux seen l → x ∈ l := by
  intro l
  induction l with
  | nil => intro seen h; exact absurd h (by simp [dedupFirstAux])
  | cons a l ih =>
    intro seen h
    rw [dedupFirstAux] at h
    by_cases hc : seen.contains a = true
    · rw [if_pos hc] at h
      exact List.mem_cons_of_mem a (ih h)
    · rw [if_neg hc] at h
      rcases List.mem_cons.mp h with rfl | h2
      · exact List.mem_cons_self x l
      · exact List.mem_cons_of_mem a (ih h2)

/-- Every date scanned by the streak loop is the date of some log row
(helper). -/
theorem mem_uniqueDatesDesc {log : List Row} {d : Int}
    (h : d ∈ uniqueDatesDesc log) : ∃ r ∈ log, r.date = d := by
  unfold uniqueDatesDesc at h
  have h2 := (List.perm_insertionSort _ _).mem_iff.mp h
  have h3 := mem_dedupFirstAux h2
  rw [List.mem_map] at h3
  obtain ⟨r, hr, hrd⟩ := h3
  exact ⟨r, hr, hrd⟩

/-- C1 counterexample: `gapLog` logs successful (done, non-OFF) rows on days
100, 99, 98 and 96 and nothing on day 97; with today = 100 the claim's
consecutive-calendar-day scan stops at the gap and yields 3, but the code
yields 4 — day 96, older than the unlogged day 97, still contributes. -/
theorem streak_gap_cex :
    daySuccess gapLog 97 = false
      ∧ specStreakClaim gapLog 100 = 3
      ∧ streak gapLog 100 = 4 := by decide

/-- C1 (amended): the streak scans the DISTINCT LOGGED dates in descending
order, drops the future ones, and counts the longest prefix of logged dates
that each have at least one done = true, non-"OFF" row, halting at the first
logged date without one; a calendar date with no logged rows is simply absent
from the scan, so gaps between logged dates do not break the streak. -/
theorem streak_counts_logged_dates :
    ∀ (log : List Row) (today : Int),
      streak log today
        = (((uniqueDatesDesc log).filter (fun x => x ≤ today)).takeWhile
            (fun x => daySuccess log x)).length := by
  intro log today
  unfold streak
  have main : ∀ l : List Int, (∀ x ∈ l, ∃ r ∈ log, r.date = x) →
      streakGo log today l
        = ((l.filter (fun x => x ≤ today)).takeWhile
            (fun x => daySuccess log x)).length := by
    intro l
    induction l with
    | nil => intro _; rfl
    | cons d ds ih =>
      intro hl
      have hd := hl d (List.mem_cons_self d ds)
      have hds := fun x hx => hl x (List.mem_cons_of_mem d hx)
      rw [streakGo]
      by_cases hfut : d > today
      · rw [if_pos hfut,
          List.filter_cons_of_neg (by simp only [decide_eq_true_eq]; omega),
          ih hds]
      · rw [if_neg hfut]
        have hdle : d ≤ today := by omega
        rw [List.filter_cons_of_pos (by simp only [decide_eq_true_eq]; omega)]
        obtain ⟨r, hr, hrd⟩ := hd
        have hmem : r ∈ log.filter (fun r2 => r2.date == d) :=
          List.mem_filter.mpr ⟨hr, by simp [hrd]⟩
        have hne : (log.filter (fun r2 => r2.date == d)).isEmpty = false := by
          cases hfil : log.filter (fun r2 => r2.date == d) with
          | nil => rw [hfil] at hmem; exact absurd hmem (List.not_mem_nil r)
          | cons a as => rfl
        rw [if_neg (by rw [hne]; exact Bool.false_ne_true)]
        by_cases hsucc : daySuccess log d = true
        · rw [if_pos hsucc, List.takeWhile_cons_of_pos hsucc,
            List.length_cons, ih hds]
          exact Nat.add_comm 1 _
        · rw [if_neg hsucc, List.takeWhile_cons_of_neg (by simpa using hsucc)]
          rfl
  exact main _ (fun x hx => mem_uniqueDatesDesc hx)

end Planner
